import Mathlib

/-!
Verification development for the Block X Bluster real-time simulation core
(source: src/app/page.tsx, the `Game` component).

The per-frame simulation is embedded shallowly:
* positions are rationals (the source uses JS numbers; all constants involved
  are exact in binary floating point, and every comparison the claims depend on
  is exact);
* `Math.sin`/`Math.cos` (external math library calls, applied to the bullet
  heading in degrees) are modelled as oracle parameters `sinD cosD : ℚ → ℚ`,
  where `sinD d` stands for `Math.sin (d * π / 180)` and `cosD d` for
  `Math.cos (d * π / 180)`;
* the mutable refs (`bulletsRef`, `blocksRef`, `bulletPoolRef`, `scoreRef`,
  `bulletIdRef`, …) become fields of explicit state records, and each
  animation-loop callback becomes a state-transition function;
* the per-second `setInterval` callbacks (difficulty progression, power-up
  countdown) become transition functions applied once per elapsed second.
-/

namespace BlockXBluster

/-- Power-up variants, from the `PowerUpType` union in the source. -/
inductive PowerUpType where
  | fireSpeed
  | multiDirectional
  | slowMotion
deriving DecidableEq, Repr

/-- Session states, from the `GameState` union in the source. -/
inductive GameState where
  | notStarted
  | playing
  | gameOver
deriving DecidableEq, Repr

/-- A projectile, from the `Bullet` interface.  The source's `angle` field is
optional and read as `bullet.angle || 0`; it is modelled as a total field that
is `0` whenever the source would leave it absent. -/
structure Bullet where
  id : Nat
  x : ℚ
  y : ℚ
  angle : ℚ
deriving DecidableEq, Repr

/-- An obstacle, from the `Block` interface.  `hp` is an integer because the
collision pass decrements it without a floor. -/
structure Block where
  id : Nat
  x : ℚ
  y : ℚ
  hp : Int
  isHit : Bool
  isBreakable : Bool
deriving DecidableEq, Repr

/-- A collectible, from the `PowerUp` interface. -/
structure PowerUp where
  id : Nat
  x : ℚ
  y : ℚ
  type : PowerUpType
deriving DecidableEq, Repr

/-- `MAX_BULLETS`: fixed capacity of the bullet pool. -/
def MAX_BULLETS : Nat := 100

/-- The simulation state shared by the bullet-pool, motion and collision
callbacks: live bullets (`bulletsRef`), pooled bullets (`bulletPoolRef`),
live blocks (`blocksRef`), the score (`scoreRef`) and the id counter
(`bulletIdRef`). -/
structure SimState where
  bullets : List Bullet
  pool : List Bullet
  blocks : List Block
  score : Nat
  nextId : Nat
deriving DecidableEq, Repr

/-- `createBullet(x, y, angle)`: pop a pooled bullet (JS `Array.pop` takes the
last element) and overwrite its fields, or mint a fresh bullet with id
`bulletIdRef.current++` when the pool is empty. -/
def createBullet (x y angle : ℚ) (s : SimState) : Bullet × SimState :=
  match s.pool.getLast? with
  | some b => ({ b with x := x, y := y, angle := angle }, { s with pool := s.pool.dropLast })
  | none => ({ id := s.nextId, x := x, y := y, angle := angle }, { s with nextId := s.nextId + 1 })

/-- The recycle push shared by `animateBullets` and `checkCollisions`: append
the recycled bullets to the pool, truncated to the available space below
`MAX_BULLETS`; the excess is discarded. -/
def pushToPool (pool recycled : List Bullet) : List Bullet :=
  if recycled.length > 0 then
    if (MAX_BULLETS : Int) - pool.length > 0 then
      pool ++ recycled.take ((MAX_BULLETS : Int) - pool.length).toNat
    else pool
  else pool

/-- A sequence of `createBullet` calls, one per requested `(x, y, angle)`
triple, keeping only the state (used to express the release-then-acquire
pooling property). -/
def acquireAll : List (ℚ × ℚ × ℚ) → SimState → SimState
  | [], s => s
  | a :: rest, s => acquireAll rest (createBullet a.1 a.2.1 a.2.2 s).2

/-- One step of the per-second difficulty/game timer: elapsed seconds, wave
size, fall speed, spawn interval and the count of power-up spawns so far. -/
structure DifficultyState where
  gameTime : Nat
  blocksPerWave : Nat
  blockFallSpeed : ℚ
  blockSpawnRate : Int
  powerUpSpawns : Nat
deriving DecidableEq, Repr

/-- The difficulty state installed by `startGame`. -/
def initDifficulty : DifficultyState :=
  { gameTime := 0, blocksPerWave := 1, blockFallSpeed := 3, blockSpawnRate := 2000,
    powerUpSpawns := 0 }

/-- The body of the `gameTimerInterval` callback, run once per elapsed second
while playing: increment by one wave every 10 s capped at 5, add 0.5 to the
fall speed every 15 s, subtract 300 ms from the spawn interval every 20 s
floored at 500, and spawn one power-up every 20 s. -/
def gameTimerTick (s : DifficultyState) : DifficultyState :=
  let newTime := s.gameTime + 1
  { gameTime := newTime
    blocksPerWave :=
      if newTime % 10 = 0 ∧ s.blocksPerWave < 5 then min (s.blocksPerWave + 1) 5
      else s.blocksPerWave
    blockFallSpeed :=
      if newTime % 15 = 0 then s.blockFallSpeed + 1/2 else s.blockFallSpeed
    blockSpawnRate :=
      if newTime % 20 = 0 ∧ s.blockSpawnRate > 500 then max (s.blockSpawnRate - 300) 500
      else s.blockSpawnRate
    powerUpSpawns :=
      if newTime % 20 = 0 then s.powerUpSpawns + 1 else s.powerUpSpawns }

/-- The difficulty state after `t` whole seconds of play. -/
def difficultyAt (t : Nat) : DifficultyState := gameTimerTick^[t] initDifficulty

/-- Modelled from the spec: the closed form `obstaclesPerWave = min (1 + ⌊t/10⌋) 5`. -/
def obstaclesPerWaveSpec (t : Nat) : Nat := min (1 + t / 10) 5

/-- Modelled from the spec: the closed form `fallSpeed = 3 + 0.5 * ⌊t/15⌋`. -/
def fallSpeedSpec (t : Nat) : ℚ := 3 + (1/2) * ((t / 15 : Nat) : ℚ)

/-- Modelled from the spec: the closed form `spawnInterval = max (2000 - 300 * ⌊t/20⌋) 500`. -/
def spawnIntervalSpec (t : Nat) : Int := max (2000 - 300 * ((t / 20 : Nat) : Int)) 500

theorem difficultyAt_succ (t : Nat) :
    difficultyAt (t + 1) = gameTimerTick (difficultyAt t) :=
  Function.iterate_succ_apply' _ _ _

/-- The incremental difficulty updates agree with the spec's closed forms at
every whole second, and the power-up spawn count is `⌊t/20⌋`. -/
theorem difficultyAt_closed (t : Nat) :
    difficultyAt t =
      { gameTime := t, blocksPerWave := obstaclesPerWaveSpec t,
        blockFallSpeed := fallSpeedSpec t, blockSpawnRate := spawnIntervalSpec t,
        powerUpSpawns := t / 20 } := by
  induction t with
  | zero =>
      simp only [difficultyAt, Function.iterate_zero_apply, initDifficulty,
        obstaclesPerWaveSpec, fallSpeedSpec, spawnIntervalSpec]
      norm_num
  | succ t ih =>
      rw [difficultyAt_succ, ih]
      simp only [gameTimerTick, obstaclesPerWaveSpec, fallSpeedSpec, spawnIntervalSpec,
        DifficultyState.mk.injEq]
      refine ⟨by trivial, ?_, ?_, ?_, ?_⟩
      · split <;> omega
      · split
        · next h =>
            have h15 : (t + 1) / 15 = t / 15 + 1 := by omega
            rw [h15]; push_cast; ring
        · next h =>
            have h15 : (t + 1) / 15 = t / 15 := by omega
            rw [h15]
      · split
        · next h =>
            have h20 : (t + 1) / 20 = t / 20 + 1 := by omega
            rw [h20]; push_cast at h ⊢; omega
        · next h =>
            rcases Decidable.em ((t + 1) % 20 = 0) with h20 | h20
            · have ht : (t + 1) / 20 = t / 20 + 1 := by omega
              have hrate : ¬(max ((2000 : Int) - 300 * ((t / 20 : Nat) : Int)) 500 > 500) :=
                fun hc => h ⟨h20, hc⟩
              rw [ht]; push_cast at hrate ⊢; omega
            · have ht : (t + 1) / 20 = t / 20 := by omega
              rw [ht]
      · split <;> omega

/-- C2: at every whole second `t` of a playing session, the incrementally
updated difficulty state equals the closed forms
`obstaclesPerWave = min (1 + ⌊t/10⌋) 5`, `fallSpeed = 3 + 0.5·⌊t/15⌋` and
`spawnInterval = max (2000 - 300·⌊t/20⌋) 500`, with `⌊t/20⌋` power-up spawns;
in particular at `t = 20` they are 3, 3.5 and 1700 ms with exactly one
power-up spawn. -/
theorem c2_difficulty_refines_closed_forms (t : Nat) :
    (difficultyAt t).blocksPerWave = obstaclesPerWaveSpec t ∧
    (difficultyAt t).blockFallSpeed = fallSpeedSpec t ∧
    (difficultyAt t).blockSpawnRate = spawnIntervalSpec t ∧
    (difficultyAt t).powerUpSpawns = t / 20 ∧
    difficultyAt 20 =
      { gameTime := 20, blocksPerWave := 3, blockFallSpeed := 7/2,
        blockSpawnRate := 1700, powerUpSpawns := 1 } := by
  refine ⟨by rw [difficultyAt_closed], by rw [difficultyAt_closed],
    by rw [difficultyAt_closed], by rw [difficultyAt_closed], ?_⟩
  rw [difficultyAt_closed]
  simp only [obstaclesPerWaveSpec, fallSpeedSpec, spawnIntervalSpec]
  norm_num

/-- C7: the difficulty state is monotone in elapsed seconds: fall speed is
non-decreasing, obstacles per wave is non-decreasing and capped at 5, and the
spawn interval is non-increasing with floor 500 ms. -/
theorem c7_difficulty_monotone (t1 t2 : Nat) (h : t1 < t2) :
    (difficultyAt t1).blockFallSpeed ≤ (difficultyAt t2).blockFallSpeed ∧
    (difficultyAt t1).blocksPerWave ≤ (difficultyAt t2).blocksPerWave ∧
    (difficultyAt t1).blocksPerWave ≤ 5 ∧
    (difficultyAt t2).blocksPerWave ≤ 5 ∧
    (difficultyAt t2).blockSpawnRate ≤ (difficultyAt t1).blockSpawnRate ∧
    500 ≤ (difficultyAt t1).blockSpawnRate ∧
    500 ≤ (difficultyAt t2).blockSpawnRate := by
  rw [difficultyAt_closed t1, difficultyAt_closed t2]
  simp only [obstaclesPerWaveSpec, fallSpeedSpec, spawnIntervalSpec]
  have hdiv15 : ((t1 / 15 : Nat) : ℚ) ≤ ((t2 / 15 : Nat) : ℚ) := by
    exact_mod_cast Nat.div_le_div_right h.le
  refine ⟨by linarith, ?_, ?_, ?_, ?_, ?_, ?_⟩ <;> omega

/-- Witness for C7 at `t1 = 0`, `t2 = 20`. -/
theorem c7_difficulty_monotone_witness :
    (difficultyAt 0).blockFallSpeed ≤ (difficultyAt 20).blockFallSpeed ∧
    (difficultyAt 0).blocksPerWave ≤ (difficultyAt 20).blocksPerWave ∧
    (difficultyAt 0).blocksPerWave ≤ 5 ∧
    (difficultyAt 20).blocksPerWave ≤ 5 ∧
    (difficultyAt 20).blockSpawnRate ≤ (difficultyAt 0).blockSpawnRate ∧
    500 ≤ (difficultyAt 0).blockSpawnRate ∧
    500 ≤ (difficultyAt 20).blockSpawnRate :=
  c7_difficulty_monotone 0 20 (by decide)

theorem acquireAll_nextId (args : List (ℚ × ℚ × ℚ)) (s : SimState)
    (h : args.length ≤ s.pool.length) : (acquireAll args s).nextId = s.nextId := by
  induction args generalizing s with
  | nil => rfl
  | cons a rest ih =>
      rcases hlast : s.pool.getLast? with _ | b
      · rw [List.getLast?_eq_none_iff] at hlast
        rw [hlast] at h
        simp at h
      · have hstep : (createBullet a.1 a.2.1 a.2.2 s).2 = { s with pool := s.pool.dropLast } := by
          simp [createBullet, hlast]
        have hlen : rest.length ≤ ({ s with pool := s.pool.dropLast } : SimState).pool.length := by
          simp only [List.length_dropLast]
          simp only [List.length_cons] at h
          omega
        rw [acquireAll, hstep, ih _ hlen]

theorem pushToPool_length_le (pool items : List Bullet) (h : pool.length ≤ MAX_BULLETS) :
    (pushToPool pool items).length ≤ MAX_BULLETS := by
  unfold pushToPool
  split
  · split
    · next havail =>
        simp only [List.length_append, List.length_take]
        omega
    · exact h
  · exact h

theorem pushToPool_length_ge (pool items : List Bullet) (h : items.length ≤ MAX_BULLETS) :
    items.length ≤ (pushToPool pool items).length := by
  unfold pushToPool
  split
  · next hlen =>
      split
      · next havail =>
          simp only [List.length_append, List.length_take]
          omega
      · next havail => omega
  · next hlen => omega

/-- C4: `createBullet` on a non-empty pool reuses a pooled instance (its id is
one already in the pool, the position/heading fields are overwritten, and the
id counter does not advance); on an empty pool it mints the fresh id
`nextId` and advances the counter, so the new id differs from every id minted
before; the recycle push never grows the pool beyond `MAX_BULLETS`; and
releasing `N ≤ MAX_BULLETS` bullets followed by `N` acquisitions leaves the id
counter unchanged (no new identity is minted). -/
theorem c4_bullet_pool (s : SimState) (x y a : ℚ) (items : List Bullet)
    (args : List (ℚ × ℚ × ℚ)) (hpool : s.pool.length ≤ MAX_BULLETS)
    (hN : items.length ≤ MAX_BULLETS) (hargs : args.length = items.length) :
    (s.pool ≠ [] →
      (createBullet x y a s).1.id ∈ s.pool.map Bullet.id ∧
      (createBullet x y a s).2.nextId = s.nextId ∧
      (createBullet x y a s).1.x = x ∧ (createBullet x y a s).1.y = y ∧
      (createBullet x y a s).1.angle = a) ∧
    (s.pool = [] →
      (createBullet x y a s).1.id = s.nextId ∧
      (createBullet x y a s).2.nextId = s.nextId + 1 ∧
      ∀ b' : Bullet, b'.id < s.nextId → b'.id ≠ (createBullet x y a s).1.id) ∧
    (pushToPool s.pool items).length ≤ MAX_BULLETS ∧
    (acquireAll args { s with pool := pushToPool s.pool items }).nextId = s.nextId := by
  refine ⟨?_, ?_, pushToPool_length_le s.pool items hpool, ?_⟩
  · intro hne
    rcases hlast : s.pool.getLast? with _ | b
    · rw [List.getLast?_eq_none_iff] at hlast
      exact absurd hlast hne
    · have hb : b ∈ s.pool := List.mem_of_getLast?_eq_some hlast
      have hc : createBullet x y a s =
          ({ b with x := x, y := y, angle := a }, { s with pool := s.pool.dropLast }) := by
        simp [createBullet, hlast]
      rw [hc]
      exact ⟨List.mem_map.mpr ⟨b, hb, rfl⟩, rfl, rfl, rfl, rfl⟩
  · intro hnil
    have hlast : s.pool.getLast? = none := List.getLast?_eq_none_iff.mpr hnil
    have hc : createBullet x y a s =
        ({ id := s.nextId, x := x, y := y, angle := a }, { s with nextId := s.nextId + 1 }) := by
      simp [createBullet, hlast]
    rw [hc]
    exact ⟨rfl, rfl, fun b' hlt => Nat.ne_of_lt hlt⟩
  · exact acquireAll_nextId args _ (by simpa using hargs ▸ pushToPool_length_ge s.pool items hN)

/-- A concrete state for the C4 witness: a pool holding one bullet. -/
def c4state : SimState :=
  { bullets := [], pool := [⟨5, 1, 2, 3⟩], blocks := [], score := 0, nextId := 6 }

/-- The released bullets of the C4 witness. -/
def c4items : List Bullet := [⟨7, 0, 0, 0⟩]

/-- The acquisition requests of the C4 witness. -/
def c4args : List (ℚ × ℚ × ℚ) := [(0, 0, 0)]

/-- Witness for C4: a pool holding one bullet, one released bullet, one
acquisition. -/
theorem c4_bullet_pool_witness :
    (c4state.pool ≠ [] →
      (createBullet 0 0 0 c4state).1.id ∈ c4state.pool.map Bullet.id ∧
      (createBullet 0 0 0 c4state).2.nextId = c4state.nextId ∧
      (createBullet 0 0 0 c4state).1.x = 0 ∧ (createBullet 0 0 0 c4state).1.y = 0 ∧
      (createBullet 0 0 0 c4state).1.angle = 0) ∧
    (c4state.pool = [] →
      (createBullet 0 0 0 c4state).1.id = c4state.nextId ∧
      (createBullet 0 0 0 c4state).2.nextId = c4state.nextId + 1 ∧
      ∀ b' : Bullet, b'.id < c4state.nextId → b'.id ≠ (createBullet 0 0 0 c4state).1.id) ∧
    (pushToPool c4state.pool c4items).length ≤ MAX_BULLETS ∧
    (acquireAll c4args { c4state with pool := pushToPool c4state.pool c4items }).nextId =
      c4state.nextId :=
  c4_bullet_pool c4state 0 0 0 c4items c4args (by decide) (by decide) (by decide)

/-- One bullet's motion update inside `animateBullets`: the source computes
`radians = angle * π / 180`, `speedX = Math.sin(radians) * 10`,
`speedY = -Math.cos(radians) * 10` and adds them to the position; `sinD` and
`cosD` stand for the library sine and cosine evaluated at the heading in
degrees. -/
def moveBullet (sinD cosD : ℚ → ℚ) (b : Bullet) : Bullet :=
  { b with x := b.x + sinD b.angle * 10, y := b.y + -cosD b.angle * 10 }

/-- The per-bullet loop of `animateBullets`: advance each bullet, keep those
with `y > -20` and collect the rest for recycling, both in iteration order. -/
def splitBullets (sinD cosD : ℚ → ℚ) : List Bullet → List Bullet × List Bullet
  | [] => ([], [])
  | b :: rest =>
    if (moveBullet sinD cosD b).y > -20 then
      (moveBullet sinD cosD b :: (splitBullets sinD cosD rest).1,
        (splitBullets sinD cosD rest).2)
    else
      ((splitBullets sinD cosD rest).1,
        moveBullet sinD cosD b :: (splitBullets sinD cosD rest).2)

/-- The `animateBullets` animation callback: update every live bullet's
position, keep the on-screen ones as the live set and push the off-screen
ones to the pool (bounded by the available space). -/
def animateBullets (sinD cosD : ℚ → ℚ) (s : SimState) : SimState :=
  { s with
    bullets := (splitBullets sinD cosD s.bullets).1,
    pool := pushToPool s.pool (splitBullets sinD cosD s.bullets).2 }

theorem splitBullets_eq (sinD cosD : ℚ → ℚ) (bs : List Bullet) :
    splitBullets sinD cosD bs =
      ((bs.map (moveBullet sinD cosD)).filter (fun b => decide (-20 < b.y)),
        (bs.map (moveBullet sinD cosD)).filter (fun b => decide (b.y ≤ -20))) := by
  induction bs with
  | nil => rfl
  | cons b rest ih =>
      by_cases h : (moveBullet sinD cosD b).y > -20
      · simp [splitBullets, h, ih, List.filter_cons, not_le.mpr h]
      · simp [splitBullets, h, ih, List.filter_cons, not_lt.mp h]

/-- C5 (amended): on a motion tick every live bullet advances by exactly
`(10·sin θ, -10·cos θ)` for its heading `θ` in degrees, and a bullet is then
removed from the live set and handed to the pool's release operation exactly
when its new `y` is at or above 20 units beyond the top bound (`y ≤ -20`,
not `y < -20` as the claim stated), and kept otherwise. -/
theorem c5_bullet_motion (sinD cosD : ℚ → ℚ) (s : SimState) :
    (∀ b ∈ s.bullets, moveBullet sinD cosD b =
      { id := b.id, x := b.x + 10 * sinD b.angle, y := b.y - 10 * cosD b.angle,
        angle := b.angle }) ∧
    (animateBullets sinD cosD s).bullets =
      (s.bullets.map (moveBullet sinD cosD)).filter (fun b => decide (-20 < b.y)) ∧
    (animateBullets sinD cosD s).pool =
      pushToPool s.pool
        ((s.bullets.map (moveBullet sinD cosD)).filter (fun b => decide (b.y ≤ -20))) := by
  refine ⟨fun b _ => ?_, ?_, ?_⟩
  · simp only [moveBullet, Bullet.mk.injEq]
    refine ⟨trivial, by ring, by ring, trivial⟩
  · simp [animateBullets, splitBullets_eq]
  · simp [animateBullets, splitBullets_eq]

/-- Oracle equal to the library sine at a heading of 0 degrees (sin 0 = 0). -/
def sinAtZero : ℚ → ℚ := fun _ => 0

/-- Oracle equal to the library cosine at a heading of 0 degrees (cos 0 = 1). -/
def cosAtZero : ℚ → ℚ := fun _ => 1

/-- Counterexample to C5 as stated: a bullet at `y = -10` with heading 0 moves
to exactly `y = -20`; the code removes it from the live set and recycles it,
but the claim's strict condition `y < -20` does not hold there. -/
theorem c5_boundary_counterexample :
    (splitBullets sinAtZero cosAtZero [{ id := 0, x := 0, y := -10, angle := 0 }]).2 =
      [{ id := 0, x := 0, y := -20, angle := 0 }] ∧
    ¬ (({ id := 0, x := 0, y := -20, angle := 0 } : Bullet).y < -20) := by
  constructor
  · norm_num [splitBullets, moveBullet, sinAtZero, cosAtZero]
  · norm_num

/-- The three effect slots' active flags (the source's `activePowerUps`). -/
structure PowerUpFlags where
  fireSpeed : Bool
  multiDirectional : Bool
  slowMotion : Bool
deriving DecidableEq, Repr

/-- The three effect slots' seconds remaining (the source's `powerUpTimeLeft`,
numbers floored at 0, modelled as naturals). -/
structure PowerUpClock where
  fireSpeed : Nat
  multiDirectional : Nat
  slowMotion : Nat
deriving DecidableEq, Repr

/-- The power-up effect engine's state. -/
structure PowerUpState where
  active : PowerUpFlags
  timeLeft : PowerUpClock
deriving DecidableEq, Repr

/-- Seconds granted on activation: `type === "slowMotion" ? 5 : 10`. -/
def powerUpDuration : PowerUpType → Nat
  | .slowMotion => 5
  | _ => 10

/-- The active flag of one slot. -/
def activeOf (s : PowerUpState) : PowerUpType → Bool
  | .fireSpeed => s.active.fireSpeed
  | .multiDirectional => s.active.multiDirectional
  | .slowMotion => s.active.slowMotion

/-- The seconds remaining of one slot. -/
def timeLeftOf (s : PowerUpState) : PowerUpType → Nat
  | .fireSpeed => s.timeLeft.fireSpeed
  | .multiDirectional => s.timeLeft.multiDirectional
  | .slowMotion => s.timeLeft.slowMotion

/-- `activatePowerUp(type)`: set the slot active and reset its seconds
remaining to the variant's duration; the other slots are untouched. -/
def activatePowerUp (t : PowerUpType) (s : PowerUpState) : PowerUpState :=
  match t with
  | .fireSpeed =>
      { active := { s.active with fireSpeed := true },
        timeLeft := { s.timeLeft with fireSpeed := powerUpDuration .fireSpeed } }
  | .multiDirectional =>
      { active := { s.active with multiDirectional := true },
        timeLeft := { s.timeLeft with multiDirectional := powerUpDuration .multiDirectional } }
  | .slowMotion =>
      { active := { s.active with slowMotion := true },
        timeLeft := { s.timeLeft with slowMotion := powerUpDuration .slowMotion } }

/-- The body of the `powerUpTimerInterval` callback, run once per second:
each slot's seconds remaining becomes `max 0 (prev - 1)` and its active flag
becomes `newTimeLeft > 0`. -/
def powerUpTick (s : PowerUpState) : PowerUpState :=
  { active :=
      { fireSpeed := decide (0 < s.timeLeft.fireSpeed - 1),
        multiDirectional := decide (0 < s.timeLeft.multiDirectional - 1),
        slowMotion := decide (0 < s.timeLeft.slowMotion - 1) },
    timeLeft :=
      { fireSpeed := s.timeLeft.fireSpeed - 1,
        multiDirectional := s.timeLeft.multiDirectional - 1,
        slowMotion := s.timeLeft.slowMotion - 1 } }

/-- The power-up state installed by `startGame`: all inactive, all timers 0. -/
def initPowerUps : PowerUpState :=
  { active := { fireSpeed := false, multiDirectional := false, slowMotion := false },
    timeLeft := { fireSpeed := 0, multiDirectional := 0, slowMotion := 0 } }

/-- The claimed invariant: a slot is active exactly when seconds remain. -/
def PowerUpInv (s : PowerUpState) : Prop :=
  ∀ t, activeOf s t = decide (0 < timeLeftOf s t)

theorem timeLeftOf_tick (s : PowerUpState) (u : PowerUpType) :
    timeLeftOf (powerUpTick s) u = timeLeftOf s u - 1 := by
  cases u <;> rfl

theorem activeOf_tick (s : PowerUpState) (u : PowerUpType) :
    activeOf (powerUpTick s) u = decide (0 < timeLeftOf s u - 1) := by
  cases u <;> rfl

theorem timeLeftOf_tick_iterate (n : Nat) (s : PowerUpState) (u : PowerUpType) :
    timeLeftOf (powerUpTick^[n] s) u = timeLeftOf s u - n := by
  induction n with
  | zero => rfl
  | succ n ih =>
      rw [Function.iterate_succ_apply', timeLeftOf_tick, ih]
      omega

theorem activeOf_tick_iterate (n : Nat) (s : PowerUpState) (u : PowerUpType) :
    activeOf (powerUpTick^[n + 1] s) u = decide (0 < timeLeftOf s u - (n + 1)) := by
  rw [Function.iterate_succ_apply', activeOf_tick, timeLeftOf_tick_iterate, Nat.sub_sub]

/-- C6: each effect slot satisfies active ⇔ seconds-remaining > 0 after
session start, after any activation and after any countdown tick; activation
sets the slot active with the full duration (5 s for slow-motion, 10 s
otherwise) even when already active; the countdown decrements each slot by 1
floored at 0; and a slot activated and never re-collected is still active for
the first `duration - 1` ticks and inactive after exactly `duration` ticks. -/
theorem c6_power_up_effect_slots (s : PowerUpState) (v : PowerUpType) (k : Nat)
    (hinv : PowerUpInv s) (hk : k < powerUpDuration v) :
    PowerUpInv initPowerUps ∧
    PowerUpInv (activatePowerUp v s) ∧
    PowerUpInv (powerUpTick s) ∧
    activeOf (activatePowerUp v s) v = true ∧
    timeLeftOf (activatePowerUp v s) v = powerUpDuration v ∧
    (∀ u, timeLeftOf (powerUpTick s) u = timeLeftOf s u - 1) ∧
    activeOf (powerUpTick^[powerUpDuration v] (activatePowerUp v s)) v = false ∧
    activeOf (powerUpTick^[k] (activatePowerUp v s)) v = true := by
  refine ⟨?_, ?_, ?_, ?_, ?_, timeLeftOf_tick s, ?_, ?_⟩
  · intro u; cases u <;> rfl
  · intro u
    cases v <;> cases u <;>
      first
        | rfl
        | exact hinv PowerUpType.fireSpeed
        | exact hinv PowerUpType.multiDirectional
        | exact hinv PowerUpType.slowMotion
  · intro u; cases u <;> rfl
  · cases v <;> rfl
  · cases v <;> rfl
  · have hd : powerUpDuration v = (powerUpDuration v - 1) + 1 := by cases v <;> rfl
    rw [hd, activeOf_tick_iterate]
    have hvv : timeLeftOf (activatePowerUp v s) v = powerUpDuration v := by cases v <;> rfl
    rw [hvv]
    simp only [decide_eq_false_iff_not, not_lt]
    omega
  · match k, hk with
    | 0, _ => cases v <;> rfl
    | (k' + 1), hk =>
        rw [activeOf_tick_iterate]
        have hvv : timeLeftOf (activatePowerUp v s) v = powerUpDuration v := by cases v <;> rfl
        rw [hvv]
        simp only [decide_eq_true_eq]
        omega

/-- Witness for C6: the initial state, the slow-motion slot, four ticks. -/
theorem c6_power_up_effect_slots_witness :
    PowerUpInv initPowerUps ∧
    PowerUpInv (activatePowerUp .slowMotion initPowerUps) ∧
    PowerUpInv (powerUpTick initPowerUps) ∧
    activeOf (activatePowerUp .slowMotion initPowerUps) .slowMotion = true ∧
    timeLeftOf (activatePowerUp .slowMotion initPowerUps) .slowMotion =
      powerUpDuration .slowMotion ∧
    (∀ u, timeLeftOf (powerUpTick initPowerUps) u = timeLeftOf initPowerUps u - 1) ∧
    activeOf (powerUpTick^[powerUpDuration .slowMotion]
      (activatePowerUp .slowMotion initPowerUps)) .slowMotion = false ∧
    activeOf (powerUpTick^[4] (activatePowerUp .slowMotion initPowerUps)) .slowMotion = true :=
  c6_power_up_effect_slots initPowerUps .slowMotion 4
    (fun t => by cases t <;> rfl) (by decide)

/-- The five animation-loop callbacks registered by `startAnimationLoops`. -/
inductive LoopCallback where
  | player
  | bullets
  | objects
  | collisions
  | playerCollisions
deriving DecidableEq, Repr

/-- The registration order of `startAnimationLoops`: the player, bullet and
object motion integrators, then the projectile-obstacle resolver, then the
player-obstacle/power-up resolver. -/
def startLoopOrder : List LoopCallback :=
  [.player, .bullets, .objects, .collisions, .playerCollisions]

/-- One `requestAnimationFrame` frame: the pending callbacks run to completion
left to right, and each one re-registers itself at the end of its own body
(exactly once, while the session is playing), so callbacks registered during
frame `n` run in frame `n + 1` in registration order. -/
def runFrame (playing : Bool) (q : List LoopCallback) : List LoopCallback :=
  q.foldl (fun next cb => if playing then next ++ [cb] else next) []

theorem runFrame_playing (q : List LoopCallback) : runFrame true q = q := by
  suffices h : ∀ acc, q.foldl (fun next cb => next ++ [cb]) acc = acc ++ q by
    simpa [runFrame] using h []
  induction q with
  | nil => simp
  | cons c rest ih => intro acc; simp [List.foldl_cons, ih]

/-- C8: in every frame of a playing session the queue of animation callbacks
keeps the registration order, so motion integration for the player, bullets
and objects runs before the projectile-obstacle collision pass (whose batch
removal happens inside its own run-to-completion callback), which in turn
runs before the player-obstacle and player-power-up checks. -/
theorem c8_tick_ordering (n : Nat) :
    (runFrame true)^[n] startLoopOrder = startLoopOrder ∧
    startLoopOrder.indexOf .player < startLoopOrder.indexOf .collisions ∧
    startLoopOrder.indexOf .bullets < startLoopOrder.indexOf .collisions ∧
    startLoopOrder.indexOf .objects < startLoopOrder.indexOf .collisions ∧
    startLoopOrder.indexOf .collisions < startLoopOrder.indexOf .playerCollisions := by
  refine ⟨?_, by decide, by decide, by decide, by decide⟩
  induction n with
  | zero => rfl
  | succ n ih => rw [Function.iterate_succ_apply', ih, runFrame_playing]

/-- The axis-aligned overlap test of `checkCollisions`: bullet hitbox 8×16
against block hitbox 40×40, open intervals
(`bulletRight > blockLeft && bulletLeft < blockRight &&
bulletBottom > blockTop && bulletTop < blockBottom`). -/
def bulletHitsBlock (b : Bullet) (bl : Block) : Bool :=
  decide (b.x + 8 > bl.x) && decide (b.x < bl.x + 40) &&
    decide (b.y + 16 > bl.y) && decide (b.y < bl.y + 40)

/-- The inner loop of `checkCollisions` for one bullet: scan the blocks in
order; at the first overlap decrement the block's durability if it is
breakable (worth one score point), set its just-hit flag and `break`.
Returns the updated blocks, whether the bullet hit, and the score delta. -/
def hitFirst (b : Bullet) : List Block → List Block × Bool × Nat
  | [] => ([], false, 0)
  | bl :: rest =>
    if bulletHitsBlock b bl then
      ({ bl with hp := if bl.isBreakable then bl.hp - 1 else bl.hp, isHit := true } :: rest,
        true, if bl.isBreakable then 1 else 0)
    else
      (bl :: (hitFirst b rest).1, (hitFirst b rest).2.1, (hitFirst b rest).2.2)

/-- The bullet loop of `checkCollisions`: process each bullet in order against
the block list (mutated in place between bullets); collect the bullets to
recycle in order, the total score delta and whether any hit was detected. -/
def scanBullets : List Bullet → List Block → List Block × List Bullet × Nat × Bool
  | [], blocks => (blocks, [], 0, false)
  | b :: bs, blocks =>
    match hitFirst b blocks with
    | (blocks1, hit, d) =>
      match scanBullets bs blocks1 with
      | (blocks2, recyc, delta, detected) =>
        (blocks2, if hit then b :: recyc else recyc, d + delta, hit || detected)

/-- The `checkCollisions` callback: skip when either list is empty; otherwise
scan every bullet against the blocks, then (when bullets hit) remove the
recycled bullets from the live set by id and push them to the pool, and (when
a hit was detected) drop the breakable blocks whose durability reached 0. -/
def checkCollisions (s : SimState) : SimState :=
  if s.bullets.length = 0 || s.blocks.length = 0 then s
  else
    { bullets :=
        if (scanBullets s.bullets s.blocks).2.1.length > 0 then
          s.bullets.filter
            (fun b => !((scanBullets s.bullets s.blocks).2.1.any (fun rb => rb.id == b.id)))
        else s.bullets
      pool :=
        if (scanBullets s.bullets s.blocks).2.1.length > 0 then
          pushToPool s.pool (scanBullets s.bullets s.blocks).2.1
        else s.pool
      blocks :=
        if (scanBullets s.bullets s.blocks).2.2.2 then
          (scanBullets s.bullets s.blocks).1.filter
            (fun bl => !bl.isBreakable || decide (0 < bl.hp))
        else (scanBullets s.bullets s.blocks).1
      score := s.score + (scanBullets s.bullets s.blocks).2.2.1
      nextId := s.nextId }

theorem hitFirst_flag (b : Bullet) (blocks : List Block) :
    (hitFirst b blocks).2.1 = blocks.any (fun bl => bulletHitsBlock b bl) := by
  induction blocks with
  | nil => rfl
  | cons bl rest ih =>
      by_cases h : bulletHitsBlock b bl
      · simp [hitFirst, h]
      · simp [hitFirst, h, ih]

theorem hitFirst_any (b b' : Bullet) (blocks : List Block) :
    ((hitFirst b blocks).1).any (fun bl => bulletHitsBlock b' bl) =
      blocks.any (fun bl => bulletHitsBlock b' bl) := by
  induction blocks with
  | nil => rfl
  | cons bl rest ih =>
      by_cases h : bulletHitsBlock b bl
      · simp only [hitFirst, if_pos h, List.any_cons]
        rfl
      · simp only [hitFirst, if_neg h, List.any_cons, ih]

theorem hitFirst_no_hit (b : Bullet) (blocks : List Block)
    (h : (hitFirst b blocks).2.1 = false) : (hitFirst b blocks).1 = blocks := by
  induction blocks with
  | nil => rfl
  | cons bl rest ih =>
      by_cases hh : bulletHitsBlock b bl
      · simp [hitFirst, hh] at h
      · simp only [hitFirst, if_neg hh] at h ⊢
        rw [ih h]

theorem hitFirst_first_match (b : Bullet) (pre post : List Block) (bl : Block)
    (hpre : ∀ bl' ∈ pre, bulletHitsBlock b bl' = false)
    (hbl : bulletHitsBlock b bl = true) :
    hitFirst b (pre ++ bl :: post) =
      (pre ++
        { bl with hp := if bl.isBreakable then bl.hp - 1 else bl.hp, isHit := true } :: post,
        true, if bl.isBreakable then 1 else 0) := by
  induction pre with
  | nil => simp [hitFirst, hbl]
  | cons p rest ih =>
      have hp : bulletHitsBlock b p = false := hpre p (List.mem_cons_self p rest)
      have hrest : ∀ bl' ∈ rest, bulletHitsBlock b bl' = false :=
        fun bl' h => hpre bl' (List.mem_cons_of_mem p h)
      have hcond : ¬(bulletHitsBlock b p = true) := by simp [hp]
      simp only [List.cons_append, hitFirst, if_neg hcond, List.append_eq]
      rw [ih hrest]

theorem scanBullets_recycled (bs : List Bullet) (blocks : List Block) :
    (scanBullets bs blocks).2.1 =
      bs.filter (fun b => blocks.any (fun bl => bulletHitsBlock b bl)) := by
  induction bs generalizing blocks with
  | nil => rfl
  | cons b rest ih =>
      simp only [scanBullets, List.filter_cons]
      rw [ih]
      have hfc : (rest.filter
          (fun b' => ((hitFirst b blocks).1).any (fun bl => bulletHitsBlock b' bl))) =
          (rest.filter (fun b' => blocks.any (fun bl => bulletHitsBlock b' bl))) :=
        List.filter_congr (fun b' _ => hitFirst_any b b' blocks)
      rw [hfc, hitFirst_flag]

theorem scanBullets_no_hit (bs : List Bullet) (blocks : List Block)
    (h : (scanBullets bs blocks).2.2.2 = false) : (scanBullets bs blocks).1 = blocks := by
  induction bs generalizing blocks with
  | nil => rfl
  | cons b rest ih =>
      simp only [scanBullets, Bool.or_eq_false_iff] at h ⊢
      have h1 := h.1
      have h2 := h.2
      rw [hitFirst_no_hit b blocks h1] at h2 ⊢
      exact ih blocks h2

theorem list_any_congr {α : Type} (p q : α → Bool) (l : List α)
    (h : ∀ x ∈ l, p x = q x) : l.any p = l.any q := by
  induction l with
  | nil => rfl
  | cons a rest ih =>
      simp only [List.any_cons, h a (List.mem_cons_self a rest),
        ih (fun x hx => h x (List.mem_cons_of_mem a hx))]

theorem scanBullets_detected (bs : List Bullet) (blocks : List Block) :
    (scanBullets bs blocks).2.2.2 =
      bs.any (fun b => blocks.any (fun bl => bulletHitsBlock b bl)) := by
  induction bs generalizing blocks with
  | nil => rfl
  | cons b rest ih =>
      simp only [scanBullets, List.any_cons]
      rw [ih, hitFirst_flag]
      congr 1
      exact list_any_congr _ _ rest (fun b' _ => hitFirst_any b b' blocks)

theorem checkCollisions_bullets_mem (s : SimState)
    (hids : (s.bullets.map Bullet.id).Nodup) (b' : Bullet) (hb' : b' ∈ s.bullets) :
    b' ∈ (checkCollisions s).bullets ↔
      ∀ bl' ∈ s.blocks, bulletHitsBlock b' bl' = false := by
  by_cases hempty : (decide (s.bullets.length = 0) || decide (s.blocks.length = 0)) = true
  · rw [checkCollisions, if_pos hempty]
    simp only [Bool.or_eq_true, decide_eq_true_eq, List.length_eq_zero] at hempty
    rcases hempty with hb | hbl
    · rw [hb] at hb'
      cases hb'
    · rw [hbl]
      simp [hb']
  · rw [checkCollisions, if_neg hempty]
    dsimp only
    by_cases hrec : (scanBullets s.bullets s.blocks).2.1.length > 0
    · rw [if_pos hrec, List.mem_filter]
      have hrw := scanBullets_recycled s.bullets s.blocks
      constructor
      · rintro ⟨-, hkeep⟩ bl' hbl'
        by_contra hhit
        rw [Bool.not_eq_false] at hhit
        have hq : s.blocks.any (fun bl => bulletHitsBlock b' bl) = true :=
          List.any_eq_true.mpr ⟨bl', hbl', hhit⟩
        have hmem : b' ∈ (scanBullets s.bullets s.blocks).2.1 := by
          rw [hrw, List.mem_filter]
          exact ⟨hb', hq⟩
        have : (scanBullets s.bullets s.blocks).2.1.any (fun rb => rb.id == b'.id) = true :=
          List.any_eq_true.mpr ⟨b', hmem, by simp⟩
        rw [this] at hkeep
        cases hkeep
      · intro hmiss
        refine ⟨hb', ?_⟩
        simp only [Bool.not_eq_true']
        rw [List.any_eq_false]
        intro rb hrb
        rw [hrw, List.mem_filter] at hrb
        simp only [beq_iff_eq]
        intro hid
        have : rb = b' := List.inj_on_of_nodup_map hids hrb.1 hb' hid
        rw [this] at hrb
        have := hrb.2
        rw [List.any_eq_true] at this
        rcases this with ⟨bl', hbl', hhit⟩
        rw [hmiss bl' hbl'] at hhit
        cases hhit
    · rw [if_neg hrec]
      have hnil : (scanBullets s.bullets s.blocks).2.1 = [] := by
        rw [← List.length_eq_zero]
        omega
      rw [scanBullets_recycled, List.filter_eq_nil_iff] at hnil
      have := hnil b' hb'
      simp only [Bool.not_eq_true, List.any_eq_false] at this
      constructor
      · intro _ bl' hbl'
        simpa using this bl' hbl'
      · intro _
        exact hb'

theorem checkCollisions_pool (s : SimState) :
    (checkCollisions s).pool =
      pushToPool s.pool
        (s.bullets.filter (fun b' => s.blocks.any (fun bl' => bulletHitsBlock b' bl'))) := by
  by_cases hempty : (decide (s.bullets.length = 0) || decide (s.blocks.length = 0)) = true
  · rw [checkCollisions, if_pos hempty]
    simp only [Bool.or_eq_true, decide_eq_true_eq, List.length_eq_zero] at hempty
    rcases hempty with hb | hbl
    · rw [hb]
      simp [pushToPool]
    · rw [hbl]
      simp [pushToPool]
  · rw [checkCollisions, if_neg hempty]
    dsimp only
    by_cases hrec : (scanBullets s.bullets s.blocks).2.1.length > 0
    · rw [if_pos hrec, scanBullets_recycled]
    · rw [if_neg hrec]
      have hnil : (scanBullets s.bullets s.blocks).2.1 = [] := by
        rw [← List.length_eq_zero]
        omega
      rw [scanBullets_recycled] at hnil
      rw [hnil]
      simp [pushToPool]

theorem checkCollisions_blocks_hp (s : SimState)
    (hhp : ∀ bl' ∈ s.blocks, bl'.isBreakable = true → 0 < bl'.hp) :
    ∀ bl' ∈ (checkCollisions s).blocks, bl'.isBreakable = true → 0 < bl'.hp := by
  intro bl' hmem hbr
  by_cases hempty : (decide (s.bullets.length = 0) || decide (s.blocks.length = 0)) = true
  · rw [checkCollisions, if_pos hempty] at hmem
    exact hhp bl' hmem hbr
  · rw [checkCollisions, if_neg hempty] at hmem
    dsimp only at hmem
    by_cases hdet : (scanBullets s.bullets s.blocks).2.2.2 = true
    · rw [if_pos hdet] at hmem
      have hpred := (List.mem_filter.mp hmem).2
      simp only [Bool.or_eq_true, Bool.not_eq_true', decide_eq_true_eq] at hpred
      rcases hpred with hnb | hp
      · rw [hbr] at hnb
        cases hnb
      · exact hp
    · rw [if_neg hdet] at hmem
      rw [Bool.not_eq_true] at hdet
      rw [scanBullets_no_hit _ _ hdet] at hmem
      exact hhp bl' hmem hbr

/-- C3: in a single collision pass each bullet is resolved against only the
first block it overlaps in iteration order — that block gets its just-hit
flag, and exactly when it is breakable its durability drops by exactly 1 and
the pass scores exactly 1 for it; a bullet survives the pass exactly when it
overlaps no block (the overlapping ones are removed by id and handed to the
pool's release operation); and every breakable block left after the pass
still has positive durability (the exhausted ones are removed in the same
pass). -/
theorem c3_projectile_obstacle_resolution (b : Bullet) (pre post : List Block) (bl : Block)
    (s : SimState)
    (hpre : ∀ bl' ∈ pre, bulletHitsBlock b bl' = false)
    (hbl : bulletHitsBlock b bl = true)
    (hids : (s.bullets.map Bullet.id).Nodup)
    (hhp : ∀ bl' ∈ s.blocks, bl'.isBreakable = true → 0 < bl'.hp) :
    hitFirst b (pre ++ bl :: post) =
      (pre ++
        { bl with hp := if bl.isBreakable then bl.hp - 1 else bl.hp, isHit := true } :: post,
        true, if bl.isBreakable then 1 else 0) ∧
    (∀ b' ∈ s.bullets,
      (b' ∈ (checkCollisions s).bullets ↔
        ∀ bl' ∈ s.blocks, bulletHitsBlock b' bl' = false)) ∧
    (checkCollisions s).pool =
      pushToPool s.pool
        (s.bullets.filter (fun b' => s.blocks.any (fun bl' => bulletHitsBlock b' bl'))) ∧
    (∀ bl' ∈ (checkCollisions s).blocks, bl'.isBreakable = true → 0 < bl'.hp) :=
  ⟨hitFirst_first_match b pre post bl hpre hbl,
    fun b' hb' => checkCollisions_bullets_mem s hids b' hb',
    checkCollisions_pool s,
    checkCollisions_blocks_hp s hhp⟩

/-- The spec's literal collision example: a projectile at (100, 100). -/
def c3bullet : Bullet := { id := 0, x := 100, y := 100, angle := 0 }

/-- The spec's literal collision example: a breakable obstacle at (98, 100). -/
def c3block : Block := { id := 1, x := 98, y := 100, hp := 5, isHit := false, isBreakable := true }

/-- A one-bullet, one-block state for the C3 witness. -/
def c3state : SimState :=
  { bullets := [c3bullet], pool := [], blocks := [c3block], score := 0, nextId := 1 }

/-- Witness for C3 at the spec's literal example. -/
theorem c3_projectile_obstacle_resolution_witness :
    hitFirst c3bullet ([] ++ c3block :: []) =
      ([] ++ { c3block with hp := if c3block.isBreakable then c3block.hp - 1 else c3block.hp, isHit := true } :: [], true, if c3block.isBreakable then 1 else 0) ∧
    (∀ b' ∈ c3state.bullets,
      (b' ∈ (checkCollisions c3state).bullets ↔
        ∀ bl' ∈ c3state.blocks, bulletHitsBlock b' bl' = false)) ∧
    (checkCollisions c3state).pool =
      pushToPool c3state.pool
        (c3state.bullets.filter
          (fun b' => c3state.blocks.any (fun bl' => bulletHitsBlock b' bl'))) ∧
    (∀ bl' ∈ (checkCollisions c3state).blocks, bl'.isBreakable = true → 0 < bl'.hp) :=
  c3_projectile_obstacle_resolution c3bullet [] [] c3block c3state
    (fun bl' h => absurd h (List.not_mem_nil bl'))
    (by norm_num [bulletHitsBlock, c3bullet, c3block])
    (by decide) (by decide)

theorem scanBullets_single_block (bs : List Bullet) (B : Block)
    (hbr : B.isBreakable = true)
    (hall : ∀ b ∈ bs, bulletHitsBlock b B = true) (hne : bs ≠ []) :
    scanBullets bs [B] =
      ([{ B with hp := B.hp - (bs.length : Int), isHit := true }], bs, bs.length, true) := by
  induction bs generalizing B with
  | nil => exact absurd rfl hne
  | cons b rest ih =>
      have hb : bulletHitsBlock b B = true := hall b (List.mem_cons_self b rest)
      have h1 : hitFirst b [B] = ([{ B with hp := B.hp - 1, isHit := true }], true, 1) := by
        simp [hitFirst, hb, hbr]
      by_cases hrest : rest = []
      · subst hrest
        simp only [scanBullets, h1]
        norm_num
      · have ihr := ih ({ B with hp := B.hp - 1, isHit := true }) hbr
          (fun b' h' => hall b' (List.mem_cons_of_mem b h')) hrest
        simp only [scanBullets, h1, ihr]
        simp only [Prod.mk.injEq, List.cons.injEq, Block.mk.injEq, List.length_cons,
          if_pos, Bool.true_or, and_true, true_and]
        repeat' apply And.intro
        all_goals first
          | rfl
          | omega

/-- C10: when every bullet of a pass overlaps the same breakable block (the
only block), each one decrements its durability by 1 and scores 1, so within
the pass the block's durability goes to `hp - n` (negative when `hp < n`),
the score gained from the one block exceeds its initial durability, and the
block is removed at the end of the pass. -/
theorem c10_stacked_hits_one_block (s : SimState) (B : Block)
    (hblocks : s.blocks = [B]) (hbr : B.isBreakable = true)
    (hall : ∀ b ∈ s.bullets, bulletHitsBlock b B = true)
    (h2 : 2 ≤ s.bullets.length)
    (hhp : B.hp < (s.bullets.length : Int)) :
    (checkCollisions s).score = s.score + s.bullets.length ∧
    (scanBullets s.bullets s.blocks).1 =
      [{ B with hp := B.hp - (s.bullets.length : Int), isHit := true }] ∧
    B.hp - (s.bullets.length : Int) < 0 ∧
    (checkCollisions s).blocks = [] ∧
    (B.hp : Int) < ((checkCollisions s).score : Int) - (s.score : Int) := by
  have hne : s.bullets ≠ [] := by
    intro h
    rw [h] at h2
    simp at h2
  have hscan := scanBullets_single_block s.bullets B hbr hall hne
  have hguard : ¬((decide (s.bullets.length = 0) || decide (s.blocks.length = 0)) = true) := by
    rw [hblocks]
    simp only [Bool.or_eq_true, decide_eq_true_eq, List.length_eq_zero, List.length_cons]
    push_neg
    exact ⟨hne, by simp⟩
  have hscore : (checkCollisions s).score = s.score + s.bullets.length := by
    rw [checkCollisions, if_neg hguard]
    dsimp only
    rw [hblocks, hscan]
  have hblocksOut : (checkCollisions s).blocks = [] := by
    rw [checkCollisions, if_neg hguard]
    dsimp only
    rw [hblocks, hscan]
    dsimp only
    rw [if_pos rfl, List.filter_cons, List.filter_nil]
    have hdrop : (!({ B with hp := B.hp - (s.bullets.length : Int), isHit := true } : Block).isBreakable || decide (0 < ({ B with hp := B.hp - (s.bullets.length : Int), isHit := true } : Block).hp)) = false := by
      simp only [hbr, Bool.not_true, Bool.false_or, decide_eq_false_iff_not, not_lt]
      omega
    rw [hdrop]
    simp
  refine ⟨hscore, ?_, by omega, hblocksOut, ?_⟩
  · rw [hblocks, hscan]
  · rw [hscore]
    push_cast
    omega

/-- Two bullets both overlapping one block of durability 1 for the C10
witness. -/
def c10state : SimState :=
  { bullets := [{ id := 0, x := 100, y := 100, angle := 0 },
      { id := 1, x := 110, y := 105, angle := 0 }],
    pool := [],
    blocks := [{ id := 7, x := 98, y := 100, hp := 1, isHit := false, isBreakable := true }],
    score := 0, nextId := 2 }

/-- The single block of the C10 witness. -/
def c10block : Block := { id := 7, x := 98, y := 100, hp := 1, isHit := false, isBreakable := true }

/-- Witness for C10: two bullets hit one block of durability 1 in one pass;
the score rises by 2 and the block's durability reaches −1 before it is
removed. -/
theorem c10_stacked_hits_one_block_witness :
    (checkCollisions c10state).score = c10state.score + c10state.bullets.length ∧
    (scanBullets c10state.bullets c10state.blocks).1 =
      [{ c10block with hp := c10block.hp - (c10state.bullets.length : Int), isHit := true }] ∧
    c10block.hp - (c10state.bullets.length : Int) < 0 ∧
    (checkCollisions c10state).blocks = [] ∧
    (c10block.hp : Int) < ((checkCollisions c10state).score : Int) - (c10state.score : Int) :=
  c10_stacked_hits_one_block c10state c10block rfl rfl
    (by
      intro b hb
      simp only [c10state, List.mem_cons, List.not_mem_nil, or_false] at hb
      rcases hb with rfl | rfl <;> norm_num [bulletHitsBlock, c10block])
    (by decide) (by decide)

/-- The session-level state around `checkPlayerCollisions` and the render
publisher.  The simulation core's refs (`bulletsRef`, `bulletPoolRef`,
`blocksRef`, `scoreRef`, `bulletIdRef`) are the embedded `SimState` in `sim`;
around them sit the session mode (`gameStateRef`), the player position
(`positionRef`, hitbox 48×48), the live power-ups, the published React
`score` state (refreshed from `scoreRef` only by the throttled `updateRender`
loop), the `needsRenderRef` dirty flag, the final-score snapshot
(`finalScoreRef`) and the effect-engine state mutated through
`activatePowerUp` on collection.  The authoritative score at any moment is
`sim.score` (the source's `scoreRef.current`); the `score` field is the
render state last published from it, and the two differ by whatever has been
scored since that publish. -/
structure GameSession where
  mode : GameState
  px : ℚ
  py : ℚ
  sim : SimState
  powerUps : List PowerUp
  score : Nat
  needsRender : Bool
  finalScore : Nat
  effects : PowerUpState
deriving Repr

/-- The player↔block overlap test of `checkPlayerCollisions`: player 48×48
against block 40×40, open intervals
(`playerLeft < blockRight && playerRight > blockLeft &&
playerTop < blockBottom && playerBottom > blockTop`). -/
def playerHitsBlock (s : GameSession) (bl : Block) : Bool :=
  decide (s.px < bl.x + 40) && decide (s.px + 48 > bl.x) &&
    decide (s.py < bl.y + 40) && decide (s.py + 48 > bl.y)

/-- The player↔power-up overlap test: player 48×48 against power-up 30×30. -/
def playerHitsPowerUp (s : GameSession) (p : PowerUp) : Bool :=
  decide (s.px < p.x + 30) && decide (s.px + 48 > p.x) &&
    decide (s.py < p.y + 30) && decide (s.py + 48 > p.y)

/-- The `updateRender` publisher: when something changed and the session is
still playing it refreshes the React render states — in particular
`setScore(scoreRef.current)` — and clears the dirty flag; in each frame it
runs before the game callbacks (it was registered first, at mount, and every
callback re-registers itself at the end of its own body), and after the
session leaves the playing state it never publishes again.  Only the score
copy is modelled: the entity snapshots it also publishes feed rendering
only. -/
def updateRender (s : GameSession) : GameSession :=
  if s.needsRender ∧ s.mode = .playing then
    { s with score := s.sim.score, needsRender := false }
  else s

/-- The `checkCollisions` callback as it acts on the session state: it
returns immediately unless playing; the projectile-obstacle pass runs on the
simulation core (scoring into `scoreRef`, not into the published `score`
state), and `needsRenderRef` is set when a hit was detected (the pass is
skipped outright when either list is empty). -/
def runCheckCollisions (s : GameSession) : GameSession :=
  if s.mode = .playing then
    { s with
      sim := checkCollisions s.sim,
      needsRender :=
        if (decide (s.sim.bullets.length = 0) || decide (s.sim.blocks.length = 0)) = true then
          s.needsRender
        else s.needsRender || (scanBullets s.sim.bullets s.sim.blocks).2.2.2 }
  else s

/-- `triggerGameOver`, together with the effect that runs once the session
state becomes game-over: `finalScoreRef.current = score`.  The snapshot is
taken from the published React `score` state — not from `scoreRef` — so it
records the authoritative score as of the last render publish, and points
scored after that publish (in particular by the projectile pass of the death
frame, which `updateRender` never publishes because the session is no longer
playing) are absent from it. -/
def triggerGameOver (s : GameSession) : GameSession :=
  { s with mode := .gameOver, finalScore := s.score }

/-- The `checkPlayerCollisions` callback: a no-op unless playing; the session
ends (with an immediate return) at the first block overlapping the player;
otherwise every overlapped power-up is collected — its variant is activated
during the scan, and when any was collected the live set is filtered by id
and the dirty flag set. -/
def checkPlayerCollisions (s : GameSession) : GameSession :=
  if s.mode ≠ .playing then s
  else if s.sim.blocks.any (fun bl => playerHitsBlock s bl) then triggerGameOver s
  else if (s.powerUps.filter (fun p => playerHitsPowerUp s p)).length > 0 then
    { s with
      effects :=
        (s.powerUps.filter (fun p => playerHitsPowerUp s p)).foldl
          (fun acc p => activatePowerUp p.type acc) s.effects,
      powerUps :=
        s.powerUps.filter
          (fun p =>
            !((s.powerUps.filter (fun q => playerHitsPowerUp s q)).any
              (fun c => c.id == p.id))),
      needsRender := true }
  else
    { s with
      effects :=
        (s.powerUps.filter (fun p => playerHitsPowerUp s p)).foldl
          (fun acc p => activatePowerUp p.type acc) s.effects }

/-- C1 (amended): while playing, any overlap between the player's 48×48
rectangle and any live block's 40×40 rectangle (open-interval test)
immediately moves the session to game-over — the block's destructibility is
never consulted — and the recorded final score is the published render-state
score at the moment of the collision; it equals the authoritative score at
that moment exactly when nothing has been scored since the last render
publish, so points scored in the death frame itself are absent from it. -/
theorem c1_player_block_collision_fatal (s : GameSession)
    (hplay : s.mode = .playing)
    (hhit : ∃ bl ∈ s.sim.blocks, playerHitsBlock s bl = true) :
    (checkPlayerCollisions s).mode = .gameOver ∧
    (checkPlayerCollisions s).finalScore = s.score ∧
    (s.score = s.sim.score → (checkPlayerCollisions s).finalScore = s.sim.score) := by
  have hany : s.sim.blocks.any (fun bl => playerHitsBlock s bl) = true := by
    rw [List.any_eq_true]
    rcases hhit with ⟨bl, h1, h2⟩
    exact ⟨bl, h1, h2⟩
  rw [checkPlayerCollisions, if_neg (by simp [hplay]), if_pos hany]
  exact ⟨rfl, rfl, fun h => h⟩

/-- The spec's fatal-collision example: an indestructible block at (60, 60). -/
def c1block : Block := { id := 0, x := 60, y := 60, hp := 999, isHit := false, isBreakable := false }

/-- The spec's fatal-collision example: the player at (50, 50), with the
published score in step with the authoritative score 7. -/
def c1state : GameSession :=
  { mode := .playing, px := 50, py := 50,
    sim := { bullets := [], pool := [], blocks := [c1block], score := 7, nextId := 0 },
    powerUps := [], score := 7, needsRender := false, finalScore := 0,
    effects := initPowerUps }

/-- Witness for C1 at the spec's example (50,50) vs (60,60), with an
indestructible block. -/
theorem c1_player_block_collision_fatal_witness :
    (checkPlayerCollisions c1state).mode = .gameOver ∧
    (checkPlayerCollisions c1state).finalScore = c1state.score ∧
    (c1state.score = c1state.sim.score →
      (checkPlayerCollisions c1state).finalScore = c1state.sim.score) :=
  c1_player_block_collision_fatal c1state rfl
    ⟨c1block, List.mem_cons_self c1block [],
      by norm_num [playerHitsBlock, c1state, c1block]⟩

/-- A bullet about to strike the block in the death frame. -/
def c1frameBullet : Bullet := { id := 0, x := 60, y := 60, angle := 0 }

/-- A breakable block of durability 2 at (60, 60): it overlaps both the
bullet and the player at (50, 50), and survives the hit that scores. -/
def c1frameBlock : Block :=
  { id := 0, x := 60, y := 60, hp := 2, isHit := false, isBreakable := true }

/-- The death frame's starting state: the render score and the authoritative
score agree at 0, and the pending frame holds one bullet about to score and
a block overlapping the player. -/
def c1frame0 : GameSession :=
  { mode := .playing, px := 50, py := 50,
    sim := { bullets := [c1frameBullet], pool := [], blocks := [c1frameBlock],
             score := 0, nextId := 1 },
    powerUps := [], score := 0, needsRender := true, finalScore := 0,
    effects := initPowerUps }

/-- Counterexample to C1 as stated: in the death frame `updateRender`
publishes the score (0), then the projectile pass scores one point
(authoritative score 1), then the player-block overlap ends the session —
and the recorded final score is the stale published 0, not the authoritative
score 1 at the moment of the collision. -/
theorem c1_death_frame_counterexample :
    (checkPlayerCollisions (runCheckCollisions (updateRender c1frame0))).mode = .gameOver ∧
    (runCheckCollisions (updateRender c1frame0)).sim.score = 1 ∧
    (checkPlayerCollisions (runCheckCollisions (updateRender c1frame0))).finalScore = 0 ∧
    (checkPlayerCollisions (runCheckCollisions (updateRender c1frame0))).finalScore ≠
      (runCheckCollisions (updateRender c1frame0)).sim.score := by
  norm_num [c1frame0, c1frameBullet, c1frameBlock, updateRender, runCheckCollisions,
    checkPlayerCollisions, triggerGameOver, checkCollisions, scanBullets, hitFirst,
    bulletHitsBlock, playerHitsBlock, playerHitsPowerUp, pushToPool, MAX_BULLETS]

/-- The ids of a list of bullets. -/
def idsOf (l : List Bullet) : List Nat := l.map Bullet.id

/-- The `fireBullet` callback at the moment it passes the fire-rate check:
with multi-directional fire it pushes three acquired bullets (headings 0,
−30 and 30, the side ones offset by ±8), otherwise a single one with heading
0; `x`, `y` stand for the muzzle position computed from the player. -/
def fireBullet (x y : ℚ) (multi : Bool) (s : SimState) : SimState :=
  if multi then
    { (createBullet (x + 8) y 30 (createBullet (x - 8) y (-30) (createBullet x y 0 s).2).2).2 with
      bullets :=
        (createBullet (x + 8) y 30 (createBullet (x - 8) y (-30)
          (createBullet x y 0 s).2).2).2.bullets ++
        [(createBullet x y 0 s).1,
          (createBullet (x - 8) y (-30) (createBullet x y 0 s).2).1,
          (createBullet (x + 8) y 30 (createBullet (x - 8) y (-30)
            (createBullet x y 0 s).2).2).1] }
  else
    { (createBullet x y 0 s).2 with
      bullets := (createBullet x y 0 s).2.bullets ++ [(createBullet x y 0 s).1] }

/-- The `animateObjects` callback restricted to the simulation state's blocks
(power-ups live in the session state): every block falls by the effective
fall speed, and blocks past the bottom bound (+50) or breakable with
durability 0 are dropped. -/
def animateObjects (fall containerHeight : ℚ) (s : SimState) : SimState :=
  { s with
    blocks :=
      (s.blocks.map (fun bl => { bl with y := bl.y + fall })).filter
        (fun bl => decide (bl.y < containerHeight + 50) &&
          (if bl.isBreakable then decide (0 < bl.hp) else true)) }

/-- Every bullet identity owned by the simulation, live and pooled. -/
def allIds (s : SimState) : Multiset Nat :=
  (idsOf s.bullets : Multiset Nat) + (idsOf s.pool : Multiset Nat)

/-- The ownership invariant: every owned identity occurs once, and the id
counter is strictly above every owned identity. -/
def SimInv (s : SimState) : Prop :=
  (allIds s).Nodup ∧ ∀ i ∈ allIds s, i < s.nextId

theorem createBullet_ids (x y a : ℚ) (s : SimState) (acc : Multiset Nat)
    (hnd : ((idsOf s.pool : Multiset Nat) + acc).Nodup)
    (hbound : ∀ i ∈ (idsOf s.pool : Multiset Nat) + acc, i < s.nextId) :
    (createBullet x y a s).2.bullets = s.bullets ∧
    s.nextId ≤ (createBullet x y a s).2.nextId ∧
    ((idsOf (createBullet x y a s).2.pool : Multiset Nat) +
      ((createBullet x y a s).1.id ::ₘ acc)).Nodup ∧
    (∀ i ∈ (idsOf (createBullet x y a s).2.pool : Multiset Nat) +
      ((createBullet x y a s).1.id ::ₘ acc), i < (createBullet x y a s).2.nextId) := by
  rcases hlast : s.pool.getLast? with _ | b
  · have hpool : s.pool = [] := List.getLast?_eq_none_iff.mp hlast
    have hc : createBullet x y a s =
        ({ id := s.nextId, x := x, y := y, angle := a }, { s with nextId := s.nextId + 1 }) := by
      simp [createBullet, hlast]
    rw [hc]
    rw [hpool] at hnd hbound
    simp only [idsOf, List.map_nil, Multiset.coe_nil, zero_add] at hnd hbound
    refine ⟨rfl, Nat.le_succ _, ?_, ?_⟩
    · rw [hpool]
      simp only [idsOf, List.map_nil, Multiset.coe_nil, zero_add, Multiset.nodup_cons]
      exact ⟨fun hmem => absurd (hbound _ hmem) (by omega), hnd⟩
    · intro i hi
      rw [hpool] at hi
      simp only [idsOf, List.map_nil, Multiset.coe_nil, zero_add, Multiset.mem_cons] at hi
      rcases hi with rfl | hi
      · exact Nat.lt_succ_self _
      · exact Nat.lt_succ_of_lt (hbound i hi)
  · obtain ⟨ys, hys⟩ := List.getLast?_eq_some_iff.mp hlast
    have hc : createBullet x y a s =
        ({ b with x := x, y := y, angle := a }, { s with pool := s.pool.dropLast }) := by
      simp [createBullet, hlast]
    rw [hc]
    have hdrop : s.pool.dropLast = ys := by rw [hys]; exact List.dropLast_concat
    have heq : (idsOf s.pool : Multiset Nat) + acc =
        (idsOf ys : Multiset Nat) + (b.id ::ₘ acc) := by
      rw [hys, idsOf, List.map_append]
      rw [← Multiset.coe_add]
      show (idsOf ys : Multiset Nat) + ([b].map Bullet.id : Multiset Nat) + acc = _
      rw [add_assoc]
      congr 1
    rw [heq] at hnd hbound
    rw [hdrop]
    exact ⟨rfl, le_refl _, hnd, hbound⟩

theorem pushToPool_cases (pool recycled : List Bullet) :
    pushToPool pool recycled = pool ∨
      ∃ k, pushToPool pool recycled = pool ++ recycled.take k := by
  unfold pushToPool
  split
  · split
    · exact Or.inr ⟨_, rfl⟩
    · exact Or.inl rfl
  · exact Or.inl rfl

theorem idsOf_append (l1 l2 : List Bullet) : idsOf (l1 ++ l2) = idsOf l1 ++ idsOf l2 :=
  List.map_append _ _ _

theorem simInv_split (s : SimState) (keep recycled : List Bullet)
    (newBlocks : List Block) (newScore : Nat)
    (hperm : List.Perm (idsOf keep ++ idsOf recycled) (idsOf s.bullets))
    (h : SimInv s) :
    SimInv { bullets := keep, pool := pushToPool s.pool recycled, blocks := newBlocks,
             score := newScore, nextId := s.nextId } := by
  have heq : (idsOf keep : Multiset Nat) + (idsOf recycled : Multiset Nat) =
      (idsOf s.bullets : Multiset Nat) := by
    rw [Multiset.coe_add]
    exact Multiset.coe_eq_coe.mpr hperm
  have hle : allIds { bullets := keep, pool := pushToPool s.pool recycled,
                      blocks := newBlocks, score := newScore, nextId := s.nextId } ≤ allIds s := by
    show (idsOf keep : Multiset Nat) + (idsOf (pushToPool s.pool recycled) : Multiset Nat) ≤
      (idsOf s.bullets : Multiset Nat) + (idsOf s.pool : Multiset Nat)
    rw [← heq]
    rcases pushToPool_cases s.pool recycled with hp | ⟨k, hp⟩
    · rw [hp]
      calc (idsOf keep : Multiset Nat) + (idsOf s.pool : Multiset Nat)
          ≤ ((idsOf keep : Multiset Nat) + (idsOf recycled : Multiset Nat)) +
              (idsOf s.pool : Multiset Nat) := by
            refine add_le_add ?_ (le_refl _)
            exact self_le_add_right _ _
        _ = _ := rfl
    · rw [hp, idsOf_append]
      have htake : ((idsOf (recycled.take k)) : Multiset Nat) ≤
          (idsOf recycled : Multiset Nat) := by
        have hsub : idsOf (recycled.take k) = (idsOf recycled).take k := by
          simp [idsOf, List.map_take]
        rw [hsub]
        exact Multiset.coe_le.mpr (List.Sublist.subperm (List.take_sublist _ _))
      calc (idsOf keep : Multiset Nat) +
            ((idsOf s.pool ++ idsOf (recycled.take k) : List Nat) : Multiset Nat)
          = (idsOf keep : Multiset Nat) +
              ((idsOf s.pool : Multiset Nat) + (idsOf (recycled.take k) : Multiset Nat)) := by
            rw [← Multiset.coe_add]
        _ ≤ (idsOf keep : Multiset Nat) +
              ((idsOf s.pool : Multiset Nat) + (idsOf recycled : Multiset Nat)) := by
            exact add_le_add (le_refl _) (add_le_add (le_refl _) htake)
        _ = ((idsOf keep : Multiset Nat) + (idsOf recycled : Multiset Nat)) +
              (idsOf s.pool : Multiset Nat) := by abel
  exact ⟨Multiset.nodup_of_le hle h.1, fun i hi => h.2 i (Multiset.mem_of_le hle hi)⟩

theorem simInv_animateObjects (fall containerHeight : ℚ) (s : SimState) (h : SimInv s) :
    SimInv (animateObjects fall containerHeight s) := h

theorem simInv_spawn (newBlocks : List Block) (s : SimState) (h : SimInv s) :
    SimInv { s with blocks := s.blocks ++ newBlocks } := h

theorem idsOf_map_move (sinD cosD : ℚ → ℚ) (l : List Bullet) :
    List.map Bullet.id (l.map (moveBullet sinD cosD)) = List.map Bullet.id l := by
  induction l with
  | nil => rfl
  | cons b rest ih =>
      simp only [List.map_cons] at ih ⊢
      rw [ih]
      rfl

theorem simInv_animateBullets (sinD cosD : ℚ → ℚ) (s : SimState) (h : SimInv s) :
    SimInv (animateBullets sinD cosD s) := by
  have hsplit := splitBullets_eq sinD cosD s.bullets
  have hperm : List.Perm (idsOf (splitBullets sinD cosD s.bullets).1 ++
      idsOf (splitBullets sinD cosD s.bullets).2) (idsOf s.bullets) := by
    rw [hsplit]
    dsimp only
    have hq : ∀ b ∈ s.bullets.map (moveBullet sinD cosD),
        (decide (b.y ≤ -20) : Bool) = !(decide ((-20 : ℚ) < b.y)) := by
      intro b _
      rw [← decide_not]
      exact decide_eq_decide.mpr not_lt.symm
    rw [List.filter_congr hq, ← idsOf_append]
    have h0 := List.filter_append_perm (fun b => decide ((-20 : ℚ) < b.y))
      (s.bullets.map (moveBullet sinD cosD))
    refine (h0.map Bullet.id).trans ?_
    rw [idsOf_map_move]
    exact List.Perm.refl _
  exact simInv_split s _ _ s.blocks s.score hperm h

theorem simInv_append3 (s' : SimState) (b1 b2 b3 : Bullet) (base : List Bullet)
    (hbul : s'.bullets = base)
    (hnd : ((idsOf s'.pool : Multiset Nat) +
      (b3.id ::ₘ b2.id ::ₘ b1.id ::ₘ (idsOf base : Multiset Nat))).Nodup)
    (hbd : ∀ i ∈ (idsOf s'.pool : Multiset Nat) +
      (b3.id ::ₘ b2.id ::ₘ b1.id ::ₘ (idsOf base : Multiset Nat)), i < s'.nextId) :
    SimInv { s' with bullets := s'.bullets ++ [b1, b2, b3] } := by
  have hms : allIds { s' with bullets := s'.bullets ++ [b1, b2, b3] } =
      (idsOf s'.pool : Multiset Nat) +
        (b3.id ::ₘ b2.id ::ₘ b1.id ::ₘ (idsOf base : Multiset Nat)) := by
    show (idsOf (s'.bullets ++ [b1, b2, b3]) : Multiset Nat) + (idsOf s'.pool : Multiset Nat) = _
    rw [hbul, idsOf_append]
    rw [← Multiset.coe_add]
    show (idsOf base : Multiset Nat) + (([b1.id, b2.id, b3.id] : List Nat) : Multiset Nat) + _ = _
    simp only [← Multiset.cons_coe, Multiset.coe_nil]
    simp only [← Multiset.singleton_add, add_zero]
    abel
  refine ⟨?_, ?_⟩
  · rw [hms]
    exact hnd
  · intro i hi
    rw [hms] at hi
    exact hbd i hi

theorem simInv_append1 (s' : SimState) (b1 : Bullet) (base : List Bullet)
    (hbul : s'.bullets = base)
    (hnd : ((idsOf s'.pool : Multiset Nat) +
      (b1.id ::ₘ (idsOf base : Multiset Nat))).Nodup)
    (hbd : ∀ i ∈ (idsOf s'.pool : Multiset Nat) +
      (b1.id ::ₘ (idsOf base : Multiset Nat)), i < s'.nextId) :
    SimInv { s' with bullets := s'.bullets ++ [b1] } := by
  have hms : allIds { s' with bullets := s'.bullets ++ [b1] } =
      (idsOf s'.pool : Multiset Nat) + (b1.id ::ₘ (idsOf base : Multiset Nat)) := by
    show (idsOf (s'.bullets ++ [b1]) : Multiset Nat) + (idsOf s'.pool : Multiset Nat) = _
    rw [hbul, idsOf_append]
    rw [← Multiset.coe_add]
    show (idsOf base : Multiset Nat) + (([b1.id] : List Nat) : Multiset Nat) + _ = _
    simp only [← Multiset.cons_coe, Multiset.coe_nil]
    simp only [← Multiset.singleton_add, add_zero]
    abel
  refine ⟨?_, ?_⟩
  · rw [hms]
    exact hnd
  · intro i hi
    rw [hms] at hi
    exact hbd i hi

theorem simInv_fireBullet (x y : ℚ) (multi : Bool) (s : SimState) (h : SimInv s) :
    SimInv (fireBullet x y multi s) := by
  obtain ⟨hnd, hbd⟩ := h
  have hnd' : ((idsOf s.pool : Multiset Nat) + (idsOf s.bullets : Multiset Nat)).Nodup := by
    rw [add_comm]
    exact hnd
  have hbd' : ∀ i ∈ (idsOf s.pool : Multiset Nat) + (idsOf s.bullets : Multiset Nat),
      i < s.nextId := by
    intro i hi
    rw [add_comm] at hi
    exact hbd i hi
  unfold fireBullet
  split
  · obtain ⟨he1, -, hnd1, hbd1⟩ := createBullet_ids x y 0 s (idsOf s.bullets) hnd' hbd'
    obtain ⟨he2, -, hnd2, hbd2⟩ :=
      createBullet_ids (x - 8) y (-30) (createBullet x y 0 s).2 _ hnd1 hbd1
    obtain ⟨he3, -, hnd3, hbd3⟩ :=
      createBullet_ids (x + 8) y 30
        (createBullet (x - 8) y (-30) (createBullet x y 0 s).2).2 _ hnd2 hbd2
    exact simInv_append3 _ _ _ _ _ (by rw [he3, he2, he1]) hnd3 hbd3
  · obtain ⟨he1, -, hnd1, hbd1⟩ := createBullet_ids x y 0 s (idsOf s.bullets) hnd' hbd'
    exact simInv_append1 _ _ _ he1 hnd1 hbd1

theorem simInv_checkCollisions (s : SimState) (h : SimInv s) : SimInv (checkCollisions s) := by
  by_cases hempty : (decide (s.bullets.length = 0) || decide (s.blocks.length = 0)) = true
  · rw [checkCollisions, if_pos hempty]
    exact h
  · by_cases hrec : (scanBullets s.bullets s.blocks).2.1.length > 0
    · have hbn : (idsOf s.bullets).Nodup := by
        have hsum := Multiset.nodup_add.mp h.1
        exact Multiset.coe_nodup.mp hsum.1
      have hruns : checkCollisions s =
          { bullets := s.bullets.filter
              (fun b => !((scanBullets s.bullets s.blocks).2.1.any (fun rb => rb.id == b.id))),
            pool := pushToPool s.pool (scanBullets s.bullets s.blocks).2.1,
            blocks := if (scanBullets s.bullets s.blocks).2.2.2 then
                (scanBullets s.bullets s.blocks).1.filter
                  (fun bl => !bl.isBreakable || decide (0 < bl.hp))
              else (scanBullets s.bullets s.blocks).1,
            score := s.score + (scanBullets s.bullets s.blocks).2.2.1,
            nextId := s.nextId } := by
        rw [checkCollisions, if_neg hempty, if_pos hrec, if_pos hrec]
      rw [hruns]
      have hcongr : ∀ b ∈ s.bullets,
          (!((scanBullets s.bullets s.blocks).2.1.any (fun rb => rb.id == b.id))) =
            (!(s.blocks.any (fun bl => bulletHitsBlock b bl))) := by
        intro b hb
        congr 1
        apply Bool.eq_iff_iff.mpr
        constructor
        · intro hany
          rw [List.any_eq_true] at hany
          obtain ⟨rb, hrb, hid⟩ := hany
          rw [scanBullets_recycled, List.mem_filter] at hrb
          rw [beq_iff_eq] at hid
          have hrb_eq : rb = b := List.inj_on_of_nodup_map hbn hrb.1 hb hid
          rw [← hrb_eq]
          exact hrb.2
        · intro hq
          rw [List.any_eq_true]
          refine ⟨b, ?_, by simp⟩
          rw [scanBullets_recycled, List.mem_filter]
          exact ⟨hb, hq⟩
      rw [List.filter_congr hcongr, scanBullets_recycled]
      apply simInv_split s _ _ _ _ ?_ h
      have h0 := List.filter_append_perm
        (fun b => !(s.blocks.any (fun bl => bulletHitsBlock b bl))) s.bullets
      have hnn : ∀ b ∈ s.bullets,
          (!(!(s.blocks.any (fun bl => bulletHitsBlock b bl)))) =
            (s.blocks.any (fun bl => bulletHitsBlock b bl)) :=
        fun b _ => Bool.not_not _
      rw [List.filter_congr hnn] at h0
      rw [← idsOf_append]
      exact h0.map Bullet.id
    · have hruns : checkCollisions s =
          { bullets := s.bullets,
            pool := s.pool,
            blocks := if (scanBullets s.bullets s.blocks).2.2.2 then
                (scanBullets s.bullets s.blocks).1.filter
                  (fun bl => !bl.isBreakable || decide (0 < bl.hp))
              else (scanBullets s.bullets s.blocks).1,
            score := s.score + (scanBullets s.bullets s.blocks).2.2.1,
            nextId := s.nextId } := by
        rw [checkCollisions, if_neg hempty, if_neg hrec, if_neg hrec]
      rw [hruns]
      exact h

/-- The simulation state installed by `startGame`: empty collections, score 0
and the id counter reset to 0 (the bullet pool is also emptied). -/
def startState : SimState :=
  { bullets := [], pool := [], blocks := [], score := 0, nextId := 0 }

/-- One scheduled mutation of the simulation state during play: a fire event,
a bullet-motion frame, a projectile-obstacle collision frame, a block-motion
frame, or a spawn wave (the randomly drawn wave abstracted as an arbitrary
block list). -/
inductive Step : SimState → SimState → Prop where
  | fire (x y : ℚ) (multi : Bool) (s : SimState) : Step s (fireBullet x y multi s)
  | animate (sinD cosD : ℚ → ℚ) (s : SimState) : Step s (animateBullets sinD cosD s)
  | collide (s : SimState) : Step s (checkCollisions s)
  | objects (fall containerHeight : ℚ) (s : SimState) :
      Step s (animateObjects fall containerHeight s)
  | spawn (newBlocks : List Block) (s : SimState) :
      Step s { s with blocks := s.blocks ++ newBlocks }

/-- The simulation states reachable in a session started by `startGame`. -/
inductive Reachable : SimState → Prop where
  | init : Reachable startState
  | step {s t : SimState} : Reachable s → Step s t → Reachable t

theorem reachable_simInv (s : SimState) (h : Reachable s) : SimInv s := by
  induction h with
  | init =>
      refine ⟨?_, ?_⟩
      · simp [allIds, idsOf, startState]
      · intro i hi
        simp [allIds, idsOf, startState] at hi
  | step hr hstep ih =>
      cases hstep with
      | fire x y multi s' => exact simInv_fireBullet _ _ _ _ ih
      | animate sinD cosD s' => exact simInv_animateBullets _ _ _ ih
      | collide s' => exact simInv_checkCollisions _ ih
      | objects fall containerHeight s' => exact simInv_animateObjects _ _ _ ih
      | spawn newBlocks s' => exact simInv_spawn _ _ ih

/-- C9: in every reachable state of a session the ids of the live bullets are
pairwise distinct and no id is simultaneously live and pooled; consequently,
for any sub-collection of the live set marked for recycling, the id-based
test used by the batch removal holds of a live bullet exactly when it is one
of the marked ones, so the removal filter removes exactly the marked bullets
and no others. -/
theorem c9_live_set_identities (s : SimState) (h : Reachable s) :
    (s.bullets.map Bullet.id).Nodup ∧
    (∀ b1 ∈ s.bullets, ∀ b2 ∈ s.pool, b1.id ≠ b2.id) ∧
    (∀ marked : List Bullet, (∀ m ∈ marked, m ∈ s.bullets) →
      ∀ b ∈ s.bullets,
        ((marked.any (fun rb => rb.id == b.id)) = true ↔ b ∈ marked)) := by
  obtain ⟨hnd, -⟩ := reachable_simInv s h
  have hsum := Multiset.nodup_add.mp hnd
  have hbn : (s.bullets.map Bullet.id).Nodup := Multiset.coe_nodup.mp hsum.1
  refine ⟨hbn, ?_, ?_⟩
  · intro b1 hb1 b2 hb2 heq
    exact Multiset.disjoint_left.mp hsum.2.2
      (Multiset.mem_coe.mpr (List.mem_map.mpr ⟨b1, hb1, rfl⟩))
      (Multiset.mem_coe.mpr (List.mem_map.mpr ⟨b2, hb2, heq.symm⟩))
  · intro marked hsub b hb
    constructor
    · intro hany
      rw [List.any_eq_true] at hany
      obtain ⟨rb, hrb, hid⟩ := hany
      rw [beq_iff_eq] at hid
      have hrb_eq : rb = b := List.inj_on_of_nodup_map hbn (hsub rb hrb) hb hid
      rw [← hrb_eq]
      exact hrb
    · intro hmem
      rw [List.any_eq_true]
      exact ⟨b, hmem, by simp⟩

/-- Witness for C9: the state reached by starting a session and firing once. -/
theorem c9_live_set_identities_witness :
    ((fireBullet 0 0 false startState).bullets.map Bullet.id).Nodup ∧
    (∀ b1 ∈ (fireBullet 0 0 false startState).bullets,
      ∀ b2 ∈ (fireBullet 0 0 false startState).pool, b1.id ≠ b2.id) ∧
    (∀ marked : List Bullet,
      (∀ m ∈ marked, m ∈ (fireBullet 0 0 false startState).bullets) →
      ∀ b ∈ (fireBullet 0 0 false startState).bullets,
        ((marked.any (fun rb => rb.id == b.id)) = true ↔ b ∈ marked)) :=
  c9_live_set_identities _ (Reachable.step Reachable.init (Step.fire 0 0 false startState))

end BlockXBluster
